import Mathlib

/-!
A shallow embedding of the Fal NFT generation repository
(`generate_prompts.py`, `generate_images.py`, `update_metadata_cid.py`)
together with theorems settling the specification claims.

Python's `random` module is a deterministic pseudo-random generator fully
determined by its seed.  We model it as an abstract deterministic stream of
naturals consumed one at a time (`RNG`); `random.choice`, `random.sample`
and `random.shuffle` become deterministic functions of that stream.
-/

namespace Fal

/-! ## Trait pools (`generate_prompts.py`, module constants) -/

def SUIT_STYLES : List String := [
  "black suit black tie", "black suit black turtleneck",
  "black suit open collar black shirt", "black suit white shirt loose tie",
  "black suit white shirt skinny black tie", "black double-breasted suit",
  "black three-piece suit with vest visible", "black suit mandarin collar",
  "black suit buttoned all the way up", "black suit rolled sleeves",
  "rumpled black suit no tie", "sharp black suit black shirt",
  "crisp black suit white shirt black tie", "black suit with pocket square"]

def SUNGLASSES : List String := [
  "black aviator sunglasses", "black wayfarer sunglasses",
  "round black sunglasses", "rectangular black sunglasses",
  "wraparound black sunglasses", "black clubmaster sunglasses",
  "cat-eye black sunglasses", "oval black sunglasses",
  "angular black sunglasses", "thin rectangular black sunglasses"]

def HAIR_STYLES : List String := [
  "short spiky hair", "long straight hair", "messy curly hair",
  "slicked back hair", "short buzzcut", "long wavy hair with bangs",
  "short textured hair with undercut", "medium tousled hair",
  "neat short hair with side part", "short choppy hair",
  "tight braids pulled back", "short flat-top military haircut",
  "messy medium hair with bangs", "long hair in a bun", "mohawk",
  "shoulder length straight hair"]

def HAIR_COLORS : List String := [
  "black", "dark brown", "light brown", "blonde", "dark blonde",
  "platinum blonde", "red", "dark red", "auburn", "silver-white",
  "dusty blue", "pink", "gray", "jet black", "strawberry blonde",
  "purple", "green-tinted black"]

def SKIN_TONES : List String := [
  "pale skin", "light skin", "fair pink skin", "light tan skin",
  "olive skin", "warm medium skin", "tan skin", "warm golden-brown skin",
  "brown skin", "dark brown skin", "deep dark skin", "pale porcelain skin"]

def ACCESSORIES : List String := [
  "coiled clear earpiece", "radio earpiece with coiled cord",
  "single earpiece", "american flag lapel pin", "silver lapel pin",
  "badge lanyard tucked into jacket", "pen clipped to breast pocket",
  "classified folder peeking from jacket", "cigarette behind ear",
  "silver tie clip", "chain connecting ear cuff to collar",
  "dog tags tucked under shirt", "wristwatch peeking from sleeve"]

def TATTOOS : List String := [
  "neck tattoo peeking above collar", "hand tattoos visible",
  "sleeve tattoo peeking from cuff", "teardrop face tattoo",
  "spider web tattoo on neck", "barcode tattoo on neck",
  "cross tattoo under eye", "snake tattoo crawling up neck",
  "rose tattoo behind ear", "skull tattoo behind ear",
  "flame tattoo on neck", "knuckle tattoos", "star tattoo behind ear",
  "dagger tattoo on hand", "forearm tattoos visible"]

def PIERCINGS : List String := [
  "gold nose stud", "silver nose ring", "septum ring", "bull nose ring",
  "eyebrow piercing", "lip ring", "double nose ring",
  "industrial ear piercing", "double hoop earring", "ear cuff",
  "chain nose ring to ear cuff", "tongue piercing"]

def FRECKLES : List String := [
  "freckles on nose", "scattered freckles across cheeks",
  "light freckles", "subtle freckles"]

def BACKGROUNDS : List String := [
  "grainy surveillance footage of parking garage",
  "underground bunker with red emergency lights",
  "cork board with red string conspiracy wall",
  "foggy black helicopter tarmac",
  "empty interrogation room single lightbulb",
  "redacted documents scattered desk",
  "shadowy hallway with flickering fluorescent lights",
  "desert highway Area 51 searchlights",
  "secret underground lab with green glowing tubes",
  "rainy night embassy rooftop with satellite dishes",
  "long dark corridor with single red exit sign",
  "foggy bridge at midnight with distant headlights",
  "empty parking structure with flickering lights",
  "dark server room with rows of blinking blue lights",
  "restricted military hangar with draped tarps",
  "desert night sky with distant unmarked warehouse",
  "dimly lit war room with glowing monitors",
  "satellite dish array in desert at night",
  "blacked out SUV motorcade on rainy street",
  "abandoned warehouse with scattered classified files",
  "rooftop at night with distant radio tower blinking red",
  "deep underground tunnel with pipes and dim yellow lights",
  "static-filled TV screens in dark control room",
  "airport tarmac with unmarked black helicopter",
  "night sky with blurry UFO and searchlights",
  "Pentagon hallway with fluorescent lighting",
  "blurry redacted documents and filing cabinets"]

def EXPRESSIONS : List String := [
  "tiny neutral mouth", "tiny flat mouth", "small expressionless mouth",
  "small flat mouth", "tiny straight mouth"]

/-- `RARITY_WEIGHTS` dict of `generate_prompts.py`, in insertion order:
extras-count paired with the desired number of items. -/
def RARITY_WEIGHTS : List (Int × Nat) := [(0, 400), (1, 760), (2, 600), (3, 200), (4, 40)]

/-- `RARITY_LABELS[num_extras]`: `none` models a Python `KeyError`. -/
def RARITY_LABELS (num_extras : Int) : Option String :=
  if num_extras = 0 then some "Common"
  else if num_extras = 1 then some "Uncommon"
  else if num_extras = 2 then some "Rare"
  else if num_extras = 3 then some "Legendary"
  else if num_extras = 4 then some "Legendary"
  else none

/-- `OPTIONAL_CATEGORIES` of `generate_prompts.py`. -/
def OPTIONAL_CATEGORIES : List (String × List String) := [
  ("accessory", ACCESSORIES),
  ("tattoo", TATTOOS),
  ("piercing", PIERCINGS),
  ("freckles", FRECKLES)]

/-! ## Deterministic pseudo-random stream -/

/-- Deterministic model of Python's seeded Mersenne-Twister state: an
infinite stream of naturals plus a read position.  The stream is fully
determined by the seed, so two runs from equal states draw equal values. -/
structure RNG where
  stream : Nat → Nat
  pos : Nat

/-- Draw one natural from the stream and advance. -/
def nextNat (g : RNG) : Nat × RNG :=
  (g.stream g.pos, ⟨g.stream, g.pos + 1⟩)

/-- `random.choice(pool)`: one uniform draw, modelled as the stream value
reduced modulo the pool size (pools in this program are never empty). -/
def choice (pool : List String) (g : RNG) : String × RNG :=
  let (n, g') := nextNat g
  (pool.getD (n % pool.length) "", g')

/-- Selection model of drawing `k` distinct elements without replacement
(the semantics of `random.sample`, and of `random.shuffle` when `k` is the
whole length): repeatedly pick a remaining element at a stream-determined
index and remove it. -/
def drawK {α : Type} : List α → Nat → RNG → List α × RNG
  | _, 0, g => ([], g)
  | [], _ + 1, g => ([], g)
  | a :: l, k + 1, g =>
    let (n, g₁) := nextNat g
    let i := n % (a :: l).length
    let x := (a :: l).get ⟨i, Nat.mod_lt _ (Nat.succ_pos _)⟩
    let (rest, g₂) := drawK ((a :: l).eraseIdx i) k g₁
    (x :: rest, g₂)

/-- `random.sample(population, k)`: raises `ValueError` unless
`0 <= k <= len(population)`. -/
def pythonSample {α : Type} (population : List α) (k : Int) (g : RNG) :
    Except Unit (List α × RNG) :=
  if k < 0 ∨ (population.length : Int) < k then .error ()
  else .ok (drawK population k.toNat g)

/-- `random.shuffle(l)`: an RNG-determined permutation of `l` (modelled by
drawing all `l.length` elements without replacement). -/
def pythonShuffle {α : Type} (l : List α) (g : RNG) : List α × RNG :=
  drawK l l.length g

/-! ## `pick_extras` and `generate_agent` -/

/-- The loop body of `pick_extras`: for one category, either draw a trait
from its pool (when the category was sampled into `cats`) or record
`None`. -/
def extrasStep (cats : List (String × List String))
    (acc : List (String × Option String) × RNG) (cp : String × List String) :
    List (String × Option String) × RNG :=
  if cp ∈ cats then
    let (v, g') := choice cp.2 acc.2
    (acc.1 ++ [(cp.1, some v)], g')
  else
    (acc.1 ++ [(cp.1, (none : Option String))], acc.2)

/-- `pick_extras(num_extras)`: sample which optional categories are active,
then for each category of `OPTIONAL_CATEGORIES` in order either draw a
trait from its pool (if sampled) or record `None`.  The result keeps the
Python dict's key order as an association list. -/
def pick_extras (num_extras : Int) (g : RNG) :
    Except Unit (List (String × Option String) × RNG) :=
  match pythonSample OPTIONAL_CATEGORIES num_extras g with
  | .error e => .error e
  | .ok (cats, g₁) =>
    .ok (OPTIONAL_CATEGORIES.foldl (extrasStep cats) ([], g₁))

/-- A full trait assignment: the seven mandatory categories plus the four
optional ones (`none` = absent).  This is exactly the data of the Python
`traits` dict, and also the canonical `combo_key` tuple of `main`
(which lists all eleven fields). -/
structure Traits where
  suit_style : String
  sunglasses : String
  hair_style : String
  hair_color : String
  skin_tone : String
  background : String
  expression : String
  accessory : Option String
  tattoo : Option String
  piercing : Option String
  freckles : Option String
deriving DecidableEq, Repr

/-- Python truthiness of `traits.get(name)`: `None` and `""` are falsy. -/
def truthy : Option String → Bool
  | none => false
  | some s => s ≠ ""

/-- Prompt fragments in the exact order `generate_agent` appends them;
optional fragments appear only when the trait is (truthily) present. -/
def buildParts (t : Traits) : List String :=
  let p₀ := ["Chibi agent, oversized head, large glossy black eyes with white highlights",
             t.hair_color ++ " " ++ t.hair_style,
             t.skin_tone]
  let p₁ := if truthy t.freckles then p₀ ++ [t.freckles.getD ""] else p₀
  let p₂ := p₁ ++ [t.expression, t.suit_style, t.sunglasses]
  let p₃ := if truthy t.accessory then p₂ ++ [t.accessory.getD ""] else p₂
  let p₄ := if truthy t.tattoo then p₃ ++ [t.tattoo.getD ""] else p₃
  let p₅ := if truthy t.piercing then p₄ ++ [t.piercing.getD ""] else p₄
  p₅ ++ ["chest-up portrait",
         t.background ++ " background",
         "kawaii digital art, NFT collectible card style"]

/-- `dict.get(key)` on the extras association list. -/
def getExtra (xs : List (String × Option String)) (key : String) : Option String :=
  match xs.lookup key with
  | some v => v
  | none => none

/-- One generated agent record (`generate_agent`'s return dict). -/
structure Agent where
  token_id : Nat
  traits : Traits
  rarity : String
  num_extras : Int
  prompt : String
deriving DecidableEq, Repr

/-- `generate_agent(token_id, num_extras)`: draw the seven mandatory traits
in program order, pick extras, look up the rarity label, and render the
prompt.  `.error` models an uncaught Python exception
(`ValueError` from `random.sample`, or `KeyError` from `RARITY_LABELS`). -/
def generate_agent (token_id : Nat) (num_extras : Int) (g : RNG) :
    Except Unit (Agent × RNG) :=
  let (suit, g₁) := choice SUIT_STYLES g
  let (sun, g₂) := choice SUNGLASSES g₁
  let (hs, g₃) := choice HAIR_STYLES g₂
  let (hc, g₄) := choice HAIR_COLORS g₃
  let (sk, g₅) := choice SKIN_TONES g₄
  let (bg, g₆) := choice BACKGROUNDS g₅
  let (ex, g₇) := choice EXPRESSIONS g₆
  match pick_extras num_extras g₇ with
  | .error e => .error e
  | .ok (extras, g₈) =>
    match RARITY_LABELS num_extras with
    | none => .error ()
    | some rarity =>
      let t : Traits := {
        suit_style := suit, sunglasses := sun, hair_style := hs,
        hair_color := hc, skin_tone := sk, background := bg, expression := ex,
        accessory := getExtra extras "accessory",
        tattoo := getExtra extras "tattoo",
        piercing := getExtra extras "piercing",
        freckles := getExtra extras "freckles" }
      .ok ({ token_id := token_id, traits := t, rarity := rarity,
             num_extras := num_extras,
             prompt := String.intercalate ", " (buildParts t) }, g₈)

/-! ## OpenSea metadata (`build_opensea_metadata`) -/

/-- One attribute entry of the OpenSea metadata document. -/
structure MetaAttribute where
  trait_type : String
  value : String
deriving DecidableEq, Repr

/-- Python `f"{n:04d}"`: decimal rendering left-padded with zeros to
width 4. -/
def pad4 (n : Nat) : String :=
  let s := toString n
  if 4 ≤ s.length then s
  else String.mk (List.replicate (4 - s.length) '0') ++ s

/-- The OpenSea metadata document emitted per agent. -/
structure OpenSeaMeta where
  name : String
  description : String
  image : String
  attributes : List MetaAttribute
deriving DecidableEq, Repr

/-- `build_opensea_metadata(agent)`: the seven mandatory attributes plus
rarity, then each optional attribute only when (truthily) present. -/
def build_opensea_metadata (agent : Agent) : OpenSeaMeta :=
  let t := agent.traits
  let base : List MetaAttribute := [
    ⟨"Suit Style", t.suit_style⟩, ⟨"Sunglasses", t.sunglasses⟩,
    ⟨"Hair Style", t.hair_style⟩, ⟨"Hair Color", t.hair_color⟩,
    ⟨"Skin Tone", t.skin_tone⟩, ⟨"Background", t.background⟩,
    ⟨"Expression", t.expression⟩, ⟨"Rarity", agent.rarity⟩]
  let a₁ := if truthy t.accessory then base ++ [⟨"Accessory", t.accessory.getD ""⟩] else base
  let a₂ := if truthy t.tattoo then a₁ ++ [⟨"Tattoo", t.tattoo.getD ""⟩] else a₁
  let a₃ := if truthy t.piercing then a₂ ++ [⟨"Piercing", t.piercing.getD ""⟩] else a₂
  let a₄ := if truthy t.freckles then a₃ ++ [⟨"Freckles", t.freckles.getD ""⟩] else a₃
  { name := "Chibi Agent #" ++ pad4 agent.token_id,
    description := "A cute chibi secret agent from the 2000-piece Chibi Agent collection.",
    image := "ipfs://YOUR_CID_HERE/" ++ pad4 agent.token_id ++ ".png",
    attributes := a₄ }

/-! ## Rarity schedule and the uniqueness loop (`main` of `generate_prompts.py`) -/

/-- Lines 244-246: `schedule.extend([num_extras] * count)` over the weight
table in insertion order. -/
def buildSchedule (table : List (Int × Nat)) : List Int :=
  table.flatMap fun p => List.replicate p.2 p.1

/-- The global attempt budget `max_attempts` of `main`. -/
def maxAttempts : Nat := 50000

/-- The inner `while attempts < max_attempts` loop of `main` for one item:
regenerate until the canonical trait key is not in `seen`.  `fuel` is the
remaining global attempt budget; the result carries the budget left after
the accepted draw.  `none` models the exhausted-budget abort (and an
uncaught exception from `generate_agent`, which likewise produces no
output). -/
def tryUnique (token_id : Nat) (num_extras : Int) (seen : List Traits)
    (g : RNG) : Nat → Option (Agent × RNG × Nat)
  | 0 => none
  | fuel + 1 =>
    match generate_agent token_id num_extras g with
    | .error _ => none
    | .ok (a, g') =>
      if a.traits ∈ seen then tryUnique token_id num_extras seen g' fuel
      else some (a, g', fuel)

/-- The outer `for i, num_extras in enumerate(schedule)` loop of `main`:
thread the seen-combination set, the accepted agents, the RNG and the
global attempt budget through the schedule. -/
def genAll (schedule : List Int) (token_id : Nat) (seen : List Traits)
    (acc : List Agent) (g : RNG) (fuel : Nat) :
    Option (List Agent × List Traits × RNG × Nat) :=
  match schedule with
  | [] => some (acc, seen, g, fuel)
  | k :: rest =>
    match tryUnique token_id k seen g fuel with
    | none => none
    | some (a, g', fuel') =>
      genAll rest (token_id + 1) (a.traits :: seen) (acc ++ [a]) g' fuel'

/-- Everything `main` writes: the shuffled schedule, the agent list, the
newline-delimited prompts file and the per-item metadata documents. -/
structure GenOutput where
  schedule : List Int
  agents : List Agent
  promptsText : String
  metadata : List OpenSeaMeta
deriving Repr

/-- `main` of `generate_prompts.py`: build and shuffle the schedule
(`none` models the failed `assert len(schedule) == 2000`), run the
uniqueness loop over it, and serialize the outputs. -/
def runMain (g : RNG) (table : List (Int × Nat)) : Option GenOutput :=
  let schedule := buildSchedule table
  if schedule.length ≠ 2000 then none
  else
    let (shuffled, g₁) := pythonShuffle schedule g
    match genAll shuffled 1 [] [] g₁ maxAttempts with
    | none => none
    | some (agents, _, _, _) =>
      some { schedule := shuffled,
             agents := agents,
             promptsText := String.join (agents.map fun a => a.prompt ++ "\n"),
             metadata := agents.map build_opensea_metadata }

/-! ## Job pipeline (`generate_images.py`)

Network interaction is modelled by per-attempt oracles: each HTTP call
either raises (`.error`, covering `raise_for_status` and transport errors)
or returns the decoded body.  The local filesystem is a map from path to
file size. -/

def MODEL_ID : String := "fal-ai/nano-banana"
def IMAGES_DIR : String := "output/images"
def MAX_POLL_ATTEMPTS : Nat := 150
def MAX_RETRIES : Nat := 3

/-- The canonical artifact path `os.path.join(IMAGES_DIR, f"{tid:04d}.png")`. -/
def destPath (token_id : Nat) : String :=
  IMAGES_DIR ++ "/" ++ pad4 token_id ++ ".png"

/-- Filesystem: size (in bytes) of the file at a path, `none` if absent. -/
def FS : Type := String → Option Nat

/-- The resume test `os.path.exists(p) and os.path.getsize(p) > 0`. -/
def nonEmptyFile (fs : FS) (path : String) : Bool :=
  match fs path with
  | some sz => 0 < sz
  | none => false

/-! ### `poll_until_done` -/

/-- Outcome of `poll_until_done`: normal return, the `RuntimeError` raised
on a FAILED/CANCELLED status, a propagated HTTP error from
`raise_for_status`, or the `TimeoutError` raised after the loop. -/
inductive PollResult where
  | completed
  | remoteFailure (status : String)
  | httpError
  | timeout
deriving DecidableEq, Repr

/-- The body of `poll_until_done`'s `for attempt in range(...)` loop,
returning the outcome together with the number of poll requests issued.
`resp i` is the decoded `status` string of the `i`-th poll (or an HTTP
error); `i` is the absolute poll index, `fuel` the iterations left. -/
def pollLoop (resp : Nat → Except Unit String) : Nat → Nat → PollResult × Nat
  | _, 0 => (.timeout, 0)
  | i, fuel + 1 =>
    match resp i with
    | .error _ => (.httpError, 1)
    | .ok status =>
      if status = "COMPLETED" then (.completed, 1)
      else if status = "FAILED" ∨ status = "CANCELLED" then
        (.remoteFailure status, 1)
      else
        let (r, n) := pollLoop resp (i + 1) fuel
        (r, n + 1)

/-- `poll_until_done(status_url)` with its fixed poll budget. -/
def poll_until_done (resp : Nat → Except Unit String) : PollResult × Nat :=
  pollLoop resp 0 MAX_POLL_ATTEMPTS

/-! ### Result-payload extraction (lines 124-136 of `generate_single`) -/

/-- One entry of an image list: a bare reference string, or a JSON object
whose `url` key may be present or missing. -/
inductive ImgEntry where
  | str (s : String)
  | obj (url : Option String)
deriving DecidableEq, Repr

/-- A JSON value sitting under the `output` or `data` key: a dict (whose
`images` key may be absent) or a non-dict value. -/
inductive JField where
  | dict (images : Option (List ImgEntry))
  | nondict
deriving DecidableEq, Repr

/-- The decoded result payload: the three keys the extraction step looks
at (`none` = key absent). -/
structure Payload where
  images : Option (List ImgEntry)
  output : Option JField
  data : Option JField
deriving DecidableEq, Repr

/-- `images = result.get("images", [])`, then the `output`/`data` fallback:
`output = result.get("output", result.get("data", {}))`, and
`images = output.get("images", [])` only when `output` is a dict. -/
def extractImagesList (p : Payload) : List ImgEntry :=
  let images := p.images.getD []
  if images.isEmpty then
    let output := match p.output with
      | some f => f
      | none => p.data.getD (JField.dict none)
    match output with
    | .dict imgs => imgs.getD []
    | .nondict => images
  else images

/-- `images[0].get("url") if isinstance(images[0], dict) else images[0]`. -/
def entryUrl : ImgEntry → Option String
  | .str s => some s
  | .obj u => u

/-- The whole extraction step: `.error` models the `RuntimeError`s
"No images in response" and "No URL in image data" (the code collapses
both causes into one retryable failure). -/
def extract_image_ref (p : Payload) : Except Unit String :=
  match extractImagesList p with
  | [] => .error ()
  | e :: _ =>
    let u := entryUrl e
    if truthy u then .ok (u.getD "") else .error ()

/-! ### `download_image` write trace (lines 89-94) -/

/-- Filesystem events of `download_image`'s persist step. -/
inductive FSEvent where
  | openWrite (path : String)
  | writeBytes (path : String) (content : List Nat)
deriving DecidableEq, Repr

/-- The file operations `download_image` performs after the HTTP fetch:
`open(dest_path, "wb")` (truncate/create at the canonical path) followed by
one write of the whole body.  There is no temporary path and no rename. -/
def download_image_events (dest_path : String) (content : List Nat) : List FSEvent :=
  [.openWrite dest_path, .writeBytes dest_path content]

/-- The path an event touches. -/
def eventPath : FSEvent → String
  | .openWrite p => p
  | .writeBytes p _ => p

/-- Crash model: if the process dies after `k` bytes of the write have
reached the disk, the file at the opened path holds the first `k` bytes. -/
def crashContent (content : List Nat) (k : Nat) : List Nat :=
  content.take k

/-! ### `generate_single` -/

/-- `submit_request`'s decoded queue response (`request_id` is unused by
the control flow). -/
structure SubmitResp where
  status_url : Option String
  response_url : Option String
deriving Repr

/-- The remote service's behaviour during one retry attempt. -/
structure AttemptEnv where
  submit : Except Unit SubmitResp
  poll : Nat → Except Unit String
  fetch : Except Unit Payload
  download : Except Unit (List Nat)

/-- Network operations, for counting. -/
inductive NetOp where
  | submitOp
  | pollOp
  | fetchOp
  | downloadOp
deriving DecidableEq, Repr

/-- Outcome of one `try:` body inside `generate_single`'s retry loop:
whether it reached `return True`, the network requests it issued, and the
byte count written to the artifact on success.  Every raised exception is
caught by the `except Exception` handler, so the attempt always returns. -/
structure AttemptOutcome where
  success : Bool
  ops : List NetOp
  written : Option Nat
deriving Repr

/-- One attempt: submit, check both URLs (Python truthiness), poll, fetch,
extract, download. -/
def runAttempt (env : AttemptEnv) : AttemptOutcome :=
  match env.submit with
  | .error _ => ⟨false, [.submitOp], none⟩
  | .ok q =>
    if truthy q.status_url ∧ truthy q.response_url then
      let (pr, n) := poll_until_done env.poll
      let polls := List.replicate n NetOp.pollOp
      match pr with
      | .completed =>
        (match env.fetch with
         | .error _ => ⟨false, .submitOp :: polls ++ [.fetchOp], none⟩
         | .ok payload =>
           match extract_image_ref payload with
           | .error _ => ⟨false, .submitOp :: polls ++ [.fetchOp], none⟩
           | .ok _ =>
             match env.download with
             | .error _ => ⟨false, .submitOp :: polls ++ [.fetchOp, .downloadOp], none⟩
             | .ok content =>
               ⟨true, .submitOp :: polls ++ [.fetchOp, .downloadOp], some content.length⟩)
      | _ => ⟨false, .submitOp :: polls, none⟩
    else ⟨false, [.submitOp], none⟩

/-- `for retry in range(MAX_RETRIES)`: run attempts until one succeeds or
the ceiling is reached; returns success flag, number of attempts started,
accumulated network operations and the bytes written (if any). -/
def retryLoop (envs : Nat → AttemptEnv) : Nat → Nat → Bool × Nat × List NetOp × Option Nat
  | _, 0 => (false, 0, [], none)
  | r, fuel + 1 =>
    let a := runAttempt (envs r)
    if a.success then (true, 1, a.ops, a.written)
    else
      let (b, n, ops, w) := retryLoop envs (r + 1) fuel
      (b, n + 1, a.ops ++ ops, w)

/-- What `generate_single` returns and does: success flag, attempts made,
network operations issued, resulting filesystem. -/
structure SingleResult where
  success : Bool
  attempts : Nat
  ops : List NetOp
  fs : FS

/-- `generate_single(token_id, prompt, force)`: the unconditional resume
check first — an existing non-empty artifact (unless forced) returns
`True` with no network activity — otherwise the retry loop. -/
def generate_single (fs : FS) (token_id : Nat) (_prompt : String)
    (force : Bool) (envs : Nat → AttemptEnv) : SingleResult :=
  let dest := destPath token_id
  if force = false ∧ nonEmptyFile fs dest then
    ⟨true, 0, [], fs⟩
  else
    let (b, n, ops, w) := retryLoop envs 0 MAX_RETRIES
    match w with
    | some sz => ⟨b, n, ops, fun p => if p = dest then some sz else fs p⟩
    | none => ⟨b, n, ops, fs⟩

/-! ### `main` of `generate_images.py` -/

/-- The pre-pass of `main` (lines 192-202): walk the requested ids, skip
unknown ids with a warning, count an id as already done when its artifact
is non-empty and the run is not forced, otherwise queue it.  Returns
`(already_done, to_generate)`. -/
def splitResume (fs : FS) (force : Bool) (known : Nat → Bool) :
    List Nat → Nat × List Nat
  | [] => (0, [])
  | tid :: rest =>
    let (a, t) := splitResume fs force known rest
    if known tid = false then (a, t)
    else if force = false ∧ nonEmptyFile fs (destPath tid) then (a + 1, t)
    else (a, tid :: t)

/-- The final tallies of `main`'s processing loop. -/
structure RunStats where
  successes : Nat
  failures : Nat
  failedIds : List Nat
deriving Repr

/-- `main`'s per-item loop (lines 218-231): call `generate_single` on each
queued id, count the boolean result, record failed ids, and continue —
`generate_single` is total, so no item ever aborts the loop. -/
def runItems (itemEnvs : Nat → Nat → AttemptEnv) (prompts : Nat → String)
    (force : Bool) : FS → List Nat → RunStats × FS
  | fs, [] => (⟨0, 0, []⟩, fs)
  | fs, tid :: rest =>
    let r := generate_single fs tid (prompts tid) force (itemEnvs tid)
    let (s, fs') := runItems itemEnvs prompts force r.fs rest
    if r.success then ({ s with successes := s.successes + 1 }, fs')
    else ({ s with failures := s.failures + 1, failedIds := tid :: s.failedIds }, fs')

/-! ## Helper lemmas: poll loop -/

/-- A poll response that keeps the loop going: an HTTP-level success whose
status is none of the three terminal values. -/
def isNonTerminal : Except Unit String → Bool
  | .error _ => false
  | .ok s => s ≠ "COMPLETED" && s ≠ "FAILED" && s ≠ "CANCELLED"

theorem pollLoop_polls_le (resp : Nat → Except Unit String) :
    ∀ fuel i, (pollLoop resp i fuel).2 ≤ fuel := by
  intro fuel
  induction fuel with
  | zero => intro i; simp [pollLoop]
  | succ f ih =>
    intro i
    simp only [pollLoop]
    cases hr : resp i with
    | error e => simp
    | ok s =>
      by_cases h1 : s = "COMPLETED"
      · simp [h1]
      · by_cases h2 : s = "FAILED" ∨ s = "CANCELLED"
        · simp [h1, h2]
        · simp only [if_neg h1, if_neg h2]
          have := ih (i + 1)
          cases hp : pollLoop resp (i + 1) f with
          | mk r n => simpa [hp] using this

theorem pollLoop_step_nonTerminal (resp : Nat → Except Unit String)
    (i fuel : Nat) (h : isNonTerminal (resp i) = true) :
    pollLoop resp i (fuel + 1) =
      ((pollLoop resp (i + 1) fuel).1, (pollLoop resp (i + 1) fuel).2 + 1) := by
  simp only [pollLoop]
  cases hr : resp i with
  | error e => rw [hr] at h; simp [isNonTerminal] at h
  | ok s =>
    rw [hr] at h
    simp only [isNonTerminal, Bool.and_eq_true, bne_iff_ne, ne_eq,
      decide_eq_true_eq] at h
    obtain ⟨⟨h1, h2⟩, h3⟩ := h
    simp only [if_neg h1, if_neg (by tauto : ¬(s = "FAILED" ∨ s = "CANCELLED"))]

theorem pollLoop_timeout (resp : Nat → Except Unit String) :
    ∀ fuel i, (∀ k, k < fuel → isNonTerminal (resp (i + k)) = true) →
    pollLoop resp i fuel = (.timeout, fuel) := by
  intro fuel
  induction fuel with
  | zero => intro i _; simp [pollLoop]
  | succ f ih =>
    intro i h
    have h0 : isNonTerminal (resp i) = true := by
      simpa using h 0 (Nat.succ_pos f)
    rw [pollLoop_step_nonTerminal resp i f h0]
    have := ih (i + 1) (fun k hk => by
      have := h (k + 1) (Nat.succ_lt_succ hk)
      simpa [Nat.add_assoc, Nat.add_comm 1 k] using this)
    rw [this]

theorem pollLoop_first_terminal (resp : Nat → Except Unit String) :
    ∀ fuel i k, k < fuel → (∀ j, j < k → isNonTerminal (resp (i + j)) = true) →
    ∀ s, resp (i + k) = .ok s →
    (s = "COMPLETED" → (pollLoop resp i fuel).1 = .completed) ∧
    ((s = "FAILED" ∨ s = "CANCELLED") →
      (pollLoop resp i fuel).1 = .remoteFailure s) := by
  intro fuel
  induction fuel with
  | zero => intro i k hk; omega
  | succ f ih =>
    intro i k hk hpre s hs
    cases k with
    | zero =>
      rw [show i + 0 = i from rfl] at hs
      constructor
      · intro hcs
        simp [pollLoop, hs, hcs]
      · intro hfs
        have hne : s ≠ "COMPLETED" := by
          rcases hfs with h | h <;> simp [h]
        simp [pollLoop, hs, hne, hfs]
    | succ k' =>
      have h0 : isNonTerminal (resp i) = true := by
        simpa using hpre 0 (Nat.succ_pos k')
      rw [pollLoop_step_nonTerminal resp i f h0]
      have hs' : resp ((i + 1) + k') = .ok s := by
        rw [show (i + 1) + k' = i + (k' + 1) by omega]; exact hs
      have hpre' : ∀ j, j < k' → isNonTerminal (resp ((i + 1) + j)) = true := by
        intro j hj
        have := hpre (j + 1) (Nat.succ_lt_succ hj)
        simpa [show i + (j + 1) = (i + 1) + j by omega] using this
      exact ih (i + 1) k' (Nat.lt_of_succ_lt_succ hk) hpre' s hs'

/-- Claim C6: `poll_until_done` never runs indefinitely: for every
sequence of poll responses it issues at most `MAX_POLL_ATTEMPTS` poll
requests; it returns COMPLETED when the first terminal status observed is
COMPLETED, raises the remote-failure error when it is FAILED or CANCELLED,
and raises the timeout error when no terminal status (and no HTTP error)
occurs within `MAX_POLL_ATTEMPTS` polls. -/
theorem poll_until_done_bounded (resp : Nat → Except Unit String) :
    (poll_until_done resp).2 ≤ MAX_POLL_ATTEMPTS ∧
    (∀ k, k < MAX_POLL_ATTEMPTS → (∀ j, j < k → isNonTerminal (resp j) = true) →
      resp k = .ok "COMPLETED" → (poll_until_done resp).1 = .completed) ∧
    (∀ k s, k < MAX_POLL_ATTEMPTS → (∀ j, j < k → isNonTerminal (resp j) = true) →
      resp k = .ok s → (s = "FAILED" ∨ s = "CANCELLED") →
      (poll_until_done resp).1 = .remoteFailure s) ∧
    ((∀ k, k < MAX_POLL_ATTEMPTS → isNonTerminal (resp k) = true) →
      poll_until_done resp = (.timeout, MAX_POLL_ATTEMPTS)) := by
  refine ⟨pollLoop_polls_le resp MAX_POLL_ATTEMPTS 0, ?_, ?_, ?_⟩
  · intro k hk hpre hs
    have := pollLoop_first_terminal resp MAX_POLL_ATTEMPTS 0 k hk
      (fun j hj => by simpa using hpre j hj) "COMPLETED" (by simpa using hs)
    exact this.1 rfl
  · intro k s hk hpre hs hfs
    have := pollLoop_first_terminal resp MAX_POLL_ATTEMPTS 0 k hk
      (fun j hj => by simpa using hpre j hj) s (by simpa using hs)
    exact this.2 hfs
  · intro h
    exact pollLoop_timeout resp MAX_POLL_ATTEMPTS 0 (fun k hk => by simpa using h k hk)

/-- Claim C6 witness: a service that never reaches a terminal state times
out after exactly 150 polls. -/
theorem poll_until_done_bounded_witness :
    poll_until_done (fun _ => .ok "IN_PROGRESS") = (.timeout, 150) :=
  (poll_until_done_bounded (fun _ => .ok "IN_PROGRESS")).2.2.2
    (fun _ _ => by decide)

/-! ## Resume check (claim C2) -/

theorem splitResume_not_queued (fs : FS) (tid : Nat)
    (hfile : nonEmptyFile fs (destPath tid) = true) :
    ∀ (known : Nat → Bool) (ids : List Nat),
    tid ∉ (splitResume fs false known ids).2 := by
  intro known ids
  induction ids with
  | nil => simp [splitResume]
  | cons t rest ih =>
    simp only [splitResume]
    cases hp : splitResume fs false known rest with
    | mk a tl =>
      rw [hp] at ih
      by_cases hkn : known t = false
      · simpa [hkn] using ih
      · simp only [if_neg hkn]
        by_cases ht : t = tid
        · subst ht
          simp [hfile, ih]
        · by_cases hne : nonEmptyFile fs (destPath t) = true
          · simpa [hne] using ih
          · simp only [Bool.not_eq_true] at hne
            simp [hne]
            exact ⟨fun h => ht h.symm, ih⟩

/-- Claim C2: when the artifact for an id already exists with nonzero size
and forced-redo mode is off, `generate_single` reports the item completed
having issued zero network operations and left the filesystem untouched,
and `main`'s pre-pass never queues the id for generation.  The resume
check is the first thing `generate_single` evaluates. -/
theorem resume_skips_network (fs : FS) (tid : Nat) (prompt : String)
    (envs : Nat → AttemptEnv) (sz : Nat)
    (hsz : fs (destPath tid) = some sz) (hpos : 0 < sz) :
    generate_single fs tid prompt false envs = ⟨true, 0, [], fs⟩ ∧
    ∀ (known : Nat → Bool) (ids : List Nat),
      tid ∉ (splitResume fs false known ids).2 := by
  have hfile : nonEmptyFile fs (destPath tid) = true := by
    simp [nonEmptyFile, hsz, hpos]
  constructor
  · simp [generate_single, hfile]
  · exact splitResume_not_queued fs tid hfile

/-- Claim C2 witness: with the artifact for id 7 present at 100 bytes,
processing id 7 is a completed no-op and the pre-pass queues nothing. -/
theorem resume_skips_network_witness :
    (generate_single (fun p => if p = destPath 7 then some 100 else none) 7 "p"
        false (fun _ => ⟨.error (), fun _ => .error (), .error (), .error ()⟩) =
      ⟨true, 0, [], fun p => if p = destPath 7 then some 100 else none⟩) ∧
    7 ∉ (splitResume (fun p => if p = destPath 7 then some 100 else none)
        false (fun _ => true) [7]).2 :=
  ⟨(resume_skips_network _ 7 "p" _ 100 (by simp) (by decide)).1,
   (resume_skips_network _ 7 "p"
      (fun _ => ⟨.error (), fun _ => .error (), .error (), .error ()⟩) 100
      (by simp) (by decide)).2 (fun _ => true) [7]⟩

/-! ## Retry exhaustion (claim C3) -/

theorem retryLoop_all_fail (envs : Nat → AttemptEnv)
    (hfail : ∀ n, (runAttempt (envs n)).success = false) :
    ∀ fuel r, (retryLoop envs r fuel).1 = false ∧
      (retryLoop envs r fuel).2.1 = fuel ∧
      (retryLoop envs r fuel).2.2.2 = none := by
  intro fuel
  induction fuel with
  | zero => intro r; simp [retryLoop]
  | succ f ih =>
    intro r
    simp only [retryLoop, hfail r, if_neg (by simp : ¬False)]
    cases hp : retryLoop envs (r + 1) f with
    | mk b rest =>
      obtain ⟨h1, h2, h3⟩ := ih (r + 1)
      rw [hp] at h1 h2 h3
      simp_all

theorem runItems_processes_all (itemEnvs : Nat → Nat → AttemptEnv)
    (prompts : Nat → String) (force : Bool) :
    ∀ (ids : List Nat) (fs : FS),
      (runItems itemEnvs prompts force fs ids).1.successes +
        (runItems itemEnvs prompts force fs ids).1.failures = ids.length := by
  intro ids
  induction ids with
  | nil => intro fs; simp [runItems]
  | cons t rest ih =>
    intro fs
    simp only [runItems]
    cases hr : generate_single fs t (prompts t) force (itemEnvs t) with
    | mk success attempts ops fs' =>
      cases hrec : runItems itemEnvs prompts force fs' rest with
      | mk s fs'' =>
        have := ih fs'
        rw [hrec] at this
        cases success <;> simp_all <;> omega

/-- Claim C3: for an item whose resume check does not fire and whose every
attempt fails, `generate_single` starts exactly `MAX_RETRIES` attempts and
returns failure (it is a total function: the per-attempt handler catches
every error, so nothing propagates); the orchestrator loop records the id
among the failed ids and still processes every remaining item. -/
theorem retry_exhaustion (fs : FS) (tid : Nat) (prompt : String)
    (force : Bool) (envs : Nat → AttemptEnv)
    (itemEnvs : Nat → Nat → AttemptEnv) (prompts : Nat → String)
    (rest : List Nat)
    (hres : force = true ∨ nonEmptyFile fs (destPath tid) = false)
    (hfail : ∀ n, (runAttempt (envs n)).success = false)
    (hie : itemEnvs tid = envs) (hp : prompts tid = prompt) :
    (generate_single fs tid prompt force envs).success = false ∧
    (generate_single fs tid prompt force envs).attempts = MAX_RETRIES ∧
    tid ∈ (runItems itemEnvs prompts force fs (tid :: rest)).1.failedIds ∧
    (runItems itemEnvs prompts force fs (tid :: rest)).1.successes +
      (runItems itemEnvs prompts force fs (tid :: rest)).1.failures =
      rest.length + 1 := by
  have hcond : ¬(force = false ∧ nonEmptyFile fs (destPath tid) = true) := by
    rcases hres with h | h
    · intro hc; rw [h] at hc; exact absurd hc.1 (by simp)
    · intro hc; rw [h] at hc; exact absurd hc.2 (by simp)
  obtain ⟨h1, h2, h3⟩ := retryLoop_all_fail envs hfail MAX_RETRIES 0
  have hgs : (generate_single fs tid prompt force envs).success = false ∧
      (generate_single fs tid prompt force envs).attempts = MAX_RETRIES ∧
      (generate_single fs tid prompt force envs).fs = fs := by
    simp only [generate_single, if_neg hcond]
    cases hrl : retryLoop envs 0 MAX_RETRIES with
    | mk b r3 =>
      rw [hrl] at h1 h2 h3
      obtain ⟨n, ops, w⟩ := r3
      simp at h2 h3
      subst h3
      simp_all
  refine ⟨hgs.1, hgs.2.1, ?_, ?_⟩
  · simp only [runItems, hie, hp]
    cases hrec : runItems itemEnvs prompts force
        (generate_single fs tid prompt force envs).fs rest with
    | mk s fs'' =>
      cases hr : generate_single fs tid prompt force envs with
      | mk success attempts ops fs' =>
        rw [hr] at hgs hrec
        simp only at hgs
        rw [hgs.1] at *
        simp_all [List.mem_cons]
  · exact runItems_processes_all itemEnvs prompts force (tid :: rest) fs

/-- Claim C3 witness: a service whose submission always raises makes item 1
fail after exactly 3 attempts, and items 1 and 2 are both still tallied. -/
theorem retry_exhaustion_witness :
    (generate_single (fun _ => none) 1 "p" false
        (fun _ => ⟨.error (), fun _ => .error (), .error (), .error ()⟩)).success = false ∧
    (generate_single (fun _ => none) 1 "p" false
        (fun _ => ⟨.error (), fun _ => .error (), .error (), .error ()⟩)).attempts = MAX_RETRIES ∧
    1 ∈ (runItems (fun _ _ => ⟨.error (), fun _ => .error (), .error (), .error ()⟩)
        (fun _ => "p") false (fun _ => none) [1, 2]).1.failedIds ∧
    (runItems (fun _ _ => ⟨.error (), fun _ => .error (), .error (), .error ()⟩)
        (fun _ => "p") false (fun _ => none) [1, 2]).1.successes +
      (runItems (fun _ _ => ⟨.error (), fun _ => .error (), .error (), .error ()⟩)
        (fun _ => "p") false (fun _ => none) [1, 2]).1.failures = [2].length + 1 :=
  retry_exhaustion (fun _ => none) 1 "p" false
    (fun _ => ⟨.error (), fun _ => .error (), .error (), .error ()⟩)
    (fun _ _ => ⟨.error (), fun _ => .error (), .error (), .error ()⟩)
    (fun _ => "p") [2] (Or.inr rfl) (fun _ => rfl) rfl rfl

/-! ## Response-shape tolerance (claim C7) -/

/-- Claim C7: the extraction step locates the image reference in each of
the three documented payload shapes — a top-level image list, an
`output`-wrapped image list, and a `data`-wrapped image list, whose head
entry is a bare reference string or an object holding a url — and whenever
no image list can be found under any of the three shapes it raises the
retryable data-shape error. -/
theorem extract_shape_tolerance (e : ImgEntry) (tail : List ImgEntry)
    (href : truthy (entryUrl e) = true) :
    extract_image_ref ⟨some (e :: tail), none, none⟩ = .ok ((entryUrl e).getD "") ∧
    extract_image_ref ⟨none, some (.dict (some (e :: tail))), none⟩ =
      .ok ((entryUrl e).getD "") ∧
    extract_image_ref ⟨none, none, some (.dict (some (e :: tail)))⟩ =
      .ok ((entryUrl e).getD "") ∧
    (∀ p : Payload, extractImagesList p = [] → extract_image_ref p = .error ()) := by
  refine ⟨?_, ?_, ?_, ?_⟩
  · simp [extract_image_ref, extractImagesList, href]
  · simp [extract_image_ref, extractImagesList, href]
  · simp [extract_image_ref, extractImagesList, href]
  · intro p hp
    simp [extract_image_ref, hp]

/-- Claim C7 witness: a bare-string reference is extracted from all three
shapes, and the empty payload raises the data-shape error. -/
theorem extract_shape_tolerance_witness :
    extract_image_ref ⟨some [.str "u"], none, none⟩ = .ok "u" ∧
    extract_image_ref ⟨none, some (.dict (some [.str "u"])), none⟩ = .ok "u" ∧
    extract_image_ref ⟨none, none, some (.dict (some [.str "u"]))⟩ = .ok "u" ∧
    extract_image_ref ⟨none, none, none⟩ = .error () :=
  ⟨(extract_shape_tolerance (.str "u") [] (by decide)).1,
   (extract_shape_tolerance (.str "u") [] (by decide)).2.1,
   (extract_shape_tolerance (.str "u") [] (by decide)).2.2.1,
   (extract_shape_tolerance (.str "u") [] (by decide)).2.2.2 _ rfl⟩

/-! ## Download persistence is not atomic (claim C8) -/

/-- Claim C8 (refuting theorem): `download_image` performs every
filesystem operation directly on the canonical per-item path — it opens
`output/images/0001.png` for truncating write and writes the body there,
with no temporary path and no rename — so a crash after 1 byte of a 2-byte
body leaves a nonzero-size, not-fully-written file at the canonical path,
which the non-empty-file resume test classifies as completed. -/
theorem download_write_not_atomic :
    download_image_events (destPath 1) [7, 8] =
      [.openWrite (destPath 1), .writeBytes (destPath 1) [7, 8]] ∧
    (download_image_events (destPath 1) [7, 8]).all
      (fun ev => eventPath ev = destPath 1) = true ∧
    crashContent [7, 8] 1 = [7] ∧
    crashContent [7, 8] 1 ≠ [7, 8] ∧
    nonEmptyFile
      (fun p => if p = destPath 1 then some (crashContent [7, 8] 1).length else none)
      (destPath 1) = true := by
  refine ⟨rfl, by decide, rfl, by decide, ?_⟩
  simp [nonEmptyFile, crashContent]

/-! ## Helper lemmas: sampling without replacement -/

theorem cons_get_eraseIdx_perm {α : Type} (l : List α) (i : Fin l.length) :
    List.Perm (l.get i :: l.eraseIdx i) l := by
  induction l with
  | nil => exact absurd i.isLt (by simp)
  | cons a t ih =>
    match i with
    | ⟨0, h⟩ => simp
    | ⟨j + 1, h⟩ =>
      have : List.Perm (t.get ⟨j, Nat.lt_of_succ_lt_succ h⟩ :: a :: t.eraseIdx j)
          (a :: t) := by
        refine List.Perm.trans (List.Perm.swap a _ (t.eraseIdx j)) ?_
        exact List.Perm.cons a (ih ⟨j, Nat.lt_of_succ_lt_succ h⟩)
      simpa [List.eraseIdx] using this

theorem drawK_length {α : Type} :
    ∀ (k : Nat) (l : List α) (g : RNG), k ≤ l.length →
      (drawK l k g).1.length = k := by
  intro k
  induction k with
  | zero => intro l g _; cases l <;> simp [drawK]
  | succ n ih =>
    intro l g hk
    match l with
    | [] => simp at hk
    | a :: t =>
      simp only [drawK]
      have hlen : ((a :: t).eraseIdx ((nextNat g).1 % (a :: t).length)).length = t.length := by
        rw [List.length_eraseIdx]
        simp [Nat.mod_lt _ (Nat.succ_pos t.length)]
      cases hd : drawK ((a :: t).eraseIdx ((nextNat g).1 % (a :: t).length)) n (nextNat g).2 with
      | mk rest g₂ =>
        have := ih _ (nextNat g).2 (by
          rw [hlen]
          have hk' : n + 1 ≤ t.length + 1 := by simpa using hk
          omega)
        rw [hd] at this
        simpa using this

theorem drawK_mem {α : Type} :
    ∀ (k : Nat) (l : List α) (g : RNG) (x : α), x ∈ (drawK l k g).1 → x ∈ l := by
  intro k
  induction k with
  | zero => intro l g x hx; cases l <;> simp [drawK] at hx
  | succ n ih =>
    intro l g x hx
    match l with
    | [] => simp [drawK] at hx
    | a :: t =>
      simp only [drawK] at hx
      cases hd : drawK ((a :: t).eraseIdx ((nextNat g).1 % (a :: t).length)) n (nextNat g).2 with
      | mk rest g₂ =>
        rw [hd] at hx
        simp only [List.mem_cons] at hx
        rcases hx with hx | hx
        · rw [hx]; exact List.get_mem _ _ _
        · have := ih _ (nextNat g).2 x (by rw [hd]; exact hx)
          exact (List.eraseIdx_sublist (a :: t) _).mem this

theorem drawK_nodup {α : Type} :
    ∀ (k : Nat) (l : List α) (g : RNG), l.Nodup → (drawK l k g).1.Nodup := by
  intro k
  induction k with
  | zero => intro l g _; cases l <;> simp [drawK]
  | succ n ih =>
    intro l g hnd
    match l with
    | [] => simp [drawK]
    | a :: t =>
      simp only [drawK]
      set i : Fin (a :: t).length :=
        ⟨(nextNat g).1 % (a :: t).length, Nat.mod_lt _ (Nat.succ_pos t.length)⟩ with hi
      have hperm := cons_get_eraseIdx_perm (a :: t) i
      have hcons : ((a :: t).get i :: (a :: t).eraseIdx i).Nodup := hperm.nodup_iff.2 hnd
      have hhead : (a :: t).get i ∉ (a :: t).eraseIdx i := (List.nodup_cons.1 hcons).1
      have htail : ((a :: t).eraseIdx i).Nodup := (List.nodup_cons.1 hcons).2
      cases hd : drawK ((a :: t).eraseIdx ↑i) n (nextNat g).2 with
      | mk rest g₂ =>
        have hrest : rest.Nodup := by
          have := ih _ (nextNat g).2 htail
          rw [hd] at this; exact this
        have hmem : (a :: t).get i ∉ rest := by
          intro hc
          exact hhead (drawK_mem n _ (nextNat g).2 _ (by rw [hd]; exact hc))
        simpa using List.nodup_cons.2 ⟨hmem, hrest⟩

theorem drawK_perm {α : Type} :
    ∀ (n : Nat) (l : List α) (g : RNG), l.length = n →
      List.Perm (drawK l n g).1 l := by
  intro n
  induction n with
  | zero =>
    intro l g hl
    rw [List.length_eq_zero.1 hl]
    simp [drawK]
  | succ m ih =>
    intro l g hl
    match l, hl with
    | a :: t, hl =>
      simp only [drawK]
      set i : Fin (a :: t).length :=
        ⟨(nextNat g).1 % (a :: t).length, Nat.mod_lt _ (Nat.succ_pos t.length)⟩ with hi
      have hlen : ((a :: t).eraseIdx ↑i).length = m := by
        rw [List.length_eraseIdx]
        simp only [i.isLt, if_pos]
        simpa using Nat.succ_injective hl
      cases hd : drawK ((a :: t).eraseIdx ↑i) m (nextNat g).2 with
      | mk rest g₂ =>
        have hrest : List.Perm rest ((a :: t).eraseIdx ↑i) := by
          have := ih _ (nextNat g).2 hlen
          rw [hd] at this; exact this
        refine List.Perm.trans ?_ (cons_get_eraseIdx_perm (a :: t) i)
        simpa using List.Perm.cons ((a :: t).get i) hrest

/-- `pythonShuffle` is an RNG-determined permutation. -/
theorem pythonShuffle_perm {α : Type} (l : List α) (g : RNG) :
    List.Perm (pythonShuffle l g).1 l :=
  drawK_perm l.length l g rfl

/-! ## Rarity schedule (claim C4) -/

theorem buildSchedule_count_zero (k : Int) :
    ∀ table : List (Int × Nat), k ∉ table.map Prod.fst →
      (buildSchedule table).count k = 0 := by
  intro table
  induction table with
  | nil => intro _; simp [buildSchedule]
  | cons p rest ih =>
    intro hk
    simp only [List.map_cons, List.mem_cons] at hk
    push_neg at hk
    simp only [buildSchedule, List.flatMap_cons, List.count_append]
    rw [List.count_replicate]
    have hne : ¬((p.1 == k) = true) := by
      simp only [beq_iff_eq]
      intro h
      exact hk.1 h.symm
    simp only [if_neg hne, Nat.zero_add]
    simpa [buildSchedule] using ih hk.2

theorem buildSchedule_count (k : Int) (c : Nat) :
    ∀ table : List (Int × Nat), (table.map Prod.fst).Nodup →
      (k, c) ∈ table → (buildSchedule table).count k = c := by
  intro table
  induction table with
  | nil => intro _ h; simp at h
  | cons p rest ih =>
    intro hnd hmem
    simp only [List.map_cons, List.nodup_cons] at hnd
    simp only [buildSchedule, List.flatMap_cons, List.count_append]
    rcases List.mem_cons.1 hmem with heq | hrest
    · have hp1 : p.1 = k := by rw [← heq]
      have hp2 : p.2 = c := by rw [← heq]
      have hz : (rest.flatMap fun q => List.replicate q.2 q.1).count k = 0 := by
        have := buildSchedule_count_zero k rest (hp1 ▸ hnd.1)
        simpa [buildSchedule] using this
      rw [hp1, hp2, hz, List.count_replicate]
      simp
    · have hk : k ∈ rest.map Prod.fst := List.mem_map.2 ⟨(k, c), hrest, rfl⟩
      have hne : ¬((p.1 == k) = true) := by
        simp only [beq_iff_eq]
        intro h
        exact hnd.1 (h ▸ hk)
      rw [List.count_replicate, if_neg hne, Nat.zero_add]
      simpa [buildSchedule] using ih hnd.2 hrest

theorem buildSchedule_length :
    ∀ table : List (Int × Nat),
      (buildSchedule table).length = (table.map Prod.snd).sum := by
  intro table
  induction table with
  | nil => simp [buildSchedule]
  | cons p rest ih =>
    simp only [buildSchedule, List.flatMap_cons, List.length_append,
      List.length_replicate, List.map_cons, List.sum_cons]
    rw [show buildSchedule rest = rest.flatMap fun p => List.replicate p.2 p.1 from rfl] at ih
    omega

/-- Claim C4: for any weight table with distinct extras-count keys, the
shuffled rarity schedule contains each extras-count exactly as many times
as the table specifies, and its length is the table's total — so the
schedule is a permutation of the multiset the table describes. -/
theorem schedule_matches_weights (table : List (Int × Nat)) (g : RNG)
    (k : Int) (c : Nat)
    (hnd : (table.map Prod.fst).Nodup) (hmem : (k, c) ∈ table) :
    ((pythonShuffle (buildSchedule table) g).1).count k = c ∧
    ((pythonShuffle (buildSchedule table) g).1).length = (table.map Prod.snd).sum := by
  have hperm := pythonShuffle_perm (buildSchedule table) g
  constructor
  · rw [hperm.count_eq]
    exact buildSchedule_count k c table hnd hmem
  · rw [hperm.length_eq]
    exact buildSchedule_length table

/-- Claim C4 witness: with the program's weight table, extras-count 1
appears exactly 760 times in the shuffled schedule, whose length is 2000. -/
theorem schedule_matches_weights_witness :
    ((pythonShuffle (buildSchedule RARITY_WEIGHTS) ⟨fun n => n, 0⟩).1).count 1 = 760 ∧
    ((pythonShuffle (buildSchedule RARITY_WEIGHTS) ⟨fun n => n, 0⟩).1).length =
      (RARITY_WEIGHTS.map Prod.snd).sum :=
  schedule_matches_weights RARITY_WEIGHTS ⟨fun n => n, 0⟩ 1 760
    (by decide) (by decide)

/-! ## `pick_extras` bounds (claim C10) -/

theorem countP_mem_eq_length {α : Type} (l cats : List α) (p : α → Bool)
    (hp : ∀ x, p x = true ↔ x ∈ cats)
    (hl : l.Nodup) (hc : cats.Nodup) (hsub : ∀ x ∈ cats, x ∈ l) :
    l.countP p = cats.length := by
  rw [List.countP_eq_length_filter]
  have hperm : List.Perm (l.filter p) cats := by
    refine (List.perm_ext_iff_of_nodup (hl.filter _) hc).2 ?_
    intro a
    simp only [List.mem_filter]
    constructor
    · intro h; exact (hp a).1 h.2
    · intro h; exact ⟨hsub a h, (hp a).2 h⟩
  exact hperm.length_eq

theorem extrasStep_shape (cats : List (String × List String)) :
    ∀ (cs : List (String × List String)) (acc : List (String × Option String)) (g : RNG),
      ((cs.foldl (extrasStep cats) (acc, g)).1).map (fun p => (p.1, p.2.isSome)) =
        acc.map (fun p => (p.1, p.2.isSome)) ++
          cs.map (fun cp => (cp.1, decide (cp ∈ cats))) := by
  intro cs
  induction cs with
  | nil => intro acc g; simp
  | cons cp rest ih =>
    intro acc g
    simp only [List.foldl_cons]
    by_cases h : cp ∈ cats
    · simp only [extrasStep, if_pos h]
      cases hc : choice cp.2 g with
      | mk v g' =>
        rw [ih]
        simp [h]
    · simp only [extrasStep, if_neg h]
      rw [ih (acc ++ [(cp.1, (none : Option String))]) g]
      simp [h]

/-- The conclusion of claim C10 for an in-range extras-count: `pick_extras`
returned normally, its result covers the four optional categories in
order, and exactly `k` of them carry a value, the rest `None`. -/
def extrasDistributionOk
    (r : Except Unit (List (String × Option String) × RNG)) (k : Nat) : Prop :=
  match r with
  | .error _ => False
  | .ok (res, _) =>
      res.map Prod.fst = OPTIONAL_CATEGORIES.map Prod.fst ∧
      res.countP (fun p => p.2.isSome) = k ∧
      res.countP (fun p => p.2.isNone) = OPTIONAL_CATEGORIES.length - k

/-- Claim C10: for an extras-count outside 0..4 (negative, or larger than
the number of optional categories) `pick_extras` fails with the
`random.sample` `ValueError` instead of producing an assignment; for an
extras-count in 0..4 it returns an assignment marking exactly that many
optional categories present and the remaining ones absent. -/
theorem pick_extras_range (num_extras : Int) (g : RNG) :
    ((num_extras < 0 ∨ 4 < num_extras) → pick_extras num_extras g = .error ()) ∧
    (0 ≤ num_extras → num_extras ≤ 4 →
      extrasDistributionOk (pick_extras num_extras g) num_extras.toNat) := by
  have hlen : (OPTIONAL_CATEGORIES.length : Int) = 4 := by decide
  constructor
  · intro hout
    have : num_extras < 0 ∨ (OPTIONAL_CATEGORIES.length : Int) < num_extras := by
      rw [hlen]; exact hout
    simp [pick_extras, pythonSample, if_pos this]
  · intro h0 h4
    have hcond : ¬(num_extras < 0 ∨ (OPTIONAL_CATEGORIES.length : Int) < num_extras) := by
      rw [hlen]; omega
    have htn : num_extras.toNat ≤ OPTIONAL_CATEGORIES.length := by
      show num_extras.toNat ≤ 4
      omega
    cases hd : drawK OPTIONAL_CATEGORIES num_extras.toNat g with
    | mk cats g₁ =>
      have hsample : pythonSample OPTIONAL_CATEGORIES num_extras g = .ok (cats, g₁) := by
        simp [pythonSample, if_neg hcond, hd]
      have hres : pick_extras num_extras g =
          .ok (OPTIONAL_CATEGORIES.foldl (extrasStep cats) ([], g₁)) := by
        simp [pick_extras, hsample]
      have hcats_len : cats.length = num_extras.toNat := by
        have := drawK_length num_extras.toNat OPTIONAL_CATEGORIES g htn
        rw [hd] at this; exact this
      have hcats_nd : cats.Nodup := by
        have := drawK_nodup num_extras.toNat OPTIONAL_CATEGORIES g (by decide)
        rw [hd] at this; exact this
      have hcats_sub : ∀ x ∈ cats, x ∈ OPTIONAL_CATEGORIES := by
        intro x hx
        exact drawK_mem num_extras.toNat OPTIONAL_CATEGORIES g x (by rw [hd]; exact hx)
      cases hf : OPTIONAL_CATEGORIES.foldl (extrasStep cats) ([], g₁) with
      | mk res g₂ =>
        have hshape := extrasStep_shape cats OPTIONAL_CATEGORIES [] g₁
        rw [hf] at hshape
        simp only [List.map_nil, List.nil_append] at hshape
        have hkeys : res.map Prod.fst = OPTIONAL_CATEGORIES.map Prod.fst := by
          have := congrArg (List.map Prod.fst) hshape
          simpa [List.map_map, Function.comp] using this
        have hsome : res.countP (fun p => p.2.isSome) = num_extras.toNat := by
          have h1 : res.countP (fun p => p.2.isSome) =
              (res.map (fun p => (p.1, p.2.isSome))).countP (fun q => q.2) := by
            rw [List.countP_map]
            rfl
          rw [h1, hshape, List.countP_map]
          have h2 : ((fun (q : String × Bool) => q.2) ∘
              (fun cp : String × List String => (cp.1, decide (cp ∈ cats)))) =
              fun cp : String × List String => decide (cp ∈ cats) := rfl
          rw [h2]
          exact (countP_mem_eq_length OPTIONAL_CATEGORIES cats _
            (fun x => by simp) (by decide) hcats_nd hcats_sub).trans hcats_len
        have hreslen : res.length = OPTIONAL_CATEGORIES.length := by
          have := congrArg List.length hkeys
          simpa using this
        have hnone : res.countP (fun p => p.2.isNone) =
            OPTIONAL_CATEGORIES.length - num_extras.toNat := by
          have hsplit := List.length_eq_countP_add_countP (fun p : String × Option String => p.2.isSome) res
          have hcongr : res.countP (fun p => decide ¬(p.2.isSome = true)) =
              res.countP (fun p => p.2.isNone) := by
            apply List.countP_congr
            intro p _
            cases hp : p.2 <;> simp [hp]
          rw [hcongr] at hsplit
          omega
        rw [hres]
        simp only [extrasDistributionOk, hf]
        exact ⟨hkeys, hsome, hnone⟩

/-- Claim C10 witness: extras-counts -1 and 5 raise; extras-count 2 yields
exactly two present and two absent optional categories. -/
theorem pick_extras_range_witness :
    pick_extras (-1) ⟨fun n => n, 0⟩ = .error () ∧
    pick_extras 5 ⟨fun n => n, 0⟩ = .error () ∧
    extrasDistributionOk (pick_extras 2 ⟨fun n => n, 0⟩) 2 :=
  ⟨(pick_extras_range (-1) ⟨fun n => n, 0⟩).1 (by decide),
   (pick_extras_range 5 ⟨fun n => n, 0⟩).1 (by decide),
   (pick_extras_range 2 ⟨fun n => n, 0⟩).2 (by decide) (by decide)⟩

/-! ## Uniqueness of generated combinations (claim C1) -/

theorem tryUnique_not_seen (token_id : Nat) (num_extras : Int) (seen : List Traits) :
    ∀ (fuel : Nat) (g : RNG) (a : Agent) (g' : RNG) (f' : Nat),
      tryUnique token_id num_extras seen g fuel = some (a, g', f') →
      a.traits ∉ seen := by
  intro fuel
  induction fuel with
  | zero => intro g a g' f' h; simp [tryUnique] at h
  | succ f ih =>
    intro g a g' f' h
    simp only [tryUnique] at h
    cases hga : generate_agent token_id num_extras g with
    | error e => rw [hga] at h; simp at h
    | ok p =>
      obtain ⟨a₀, g₀⟩ := p
      rw [hga] at h
      simp only at h
      by_cases hm : a₀.traits ∈ seen
      · rw [if_pos hm] at h
        exact ih g₀ a g' f' h
      · rw [if_neg hm] at h
        simp only [Option.some_inj] at h
        obtain ⟨ha, _, _⟩ := Prod.mk.injEq .. ▸ h
        exact ha ▸ hm

theorem genAll_invariant :
    ∀ (schedule : List Int) (token_id : Nat) (seen : List Traits)
      (acc : List Agent) (g : RNG) (fuel : Nat)
      (out : List Agent × List Traits × RNG × Nat),
      genAll schedule token_id seen acc g fuel = some out →
      (acc.map Agent.traits).Nodup →
      (∀ a ∈ acc, a.traits ∈ seen) →
      (out.1.map Agent.traits).Nodup ∧
      out.2.1.length + acc.length = seen.length + out.1.length := by
  intro schedule
  induction schedule with
  | nil =>
    intro tid seen acc g fuel out h hnd hsub
    simp only [genAll, Option.some_inj] at h
    rw [← h]
    exact ⟨hnd, by show seen.length + acc.length = seen.length + acc.length; rfl⟩
  | cons k rest ih =>
    intro tid seen acc g fuel out h hnd hsub
    simp only [genAll] at h
    cases ht : tryUnique tid k seen g fuel with
    | none => rw [ht] at h; simp at h
    | some p =>
      obtain ⟨a, g', f'⟩ := p
      rw [ht] at h
      simp only at h
      have hnot := tryUnique_not_seen tid k seen fuel g a g' f' ht
      have hmemnot : a.traits ∉ acc.map Agent.traits := by
        intro hc
        obtain ⟨b, hb, hbe⟩ := List.mem_map.1 hc
        exact hnot (hbe ▸ hsub b hb)
      have hnd' : ((acc ++ [a]).map Agent.traits).Nodup := by
        rw [List.map_append]
        simp only [List.map_cons, List.map_nil]
        rw [List.nodup_append]
        exact ⟨hnd, List.nodup_singleton _, by simpa using hmemnot⟩
      have hsub' : ∀ b ∈ acc ++ [a], b.traits ∈ a.traits :: seen := by
        intro b hb
        rcases List.mem_append.1 hb with hb | hb
        · exact List.mem_cons_of_mem _ (hsub b hb)
        · simp only [List.mem_singleton] at hb
          rw [hb]
          exact List.mem_cons_self _ _
      have hrec := ih (tid + 1) (a.traits :: seen) (acc ++ [a]) g' f' out h hnd' hsub'
      refine ⟨hrec.1, ?_⟩
      have harith := hrec.2
      simp only [List.length_append, List.length_cons, List.length_nil] at harith
      omega

/-- The uniqueness invariant of any value `main`'s generation loop can
return: in a run that completes, the canonical trait keys of the accepted
agents are pairwise distinct, the number of distinct keys equals the
number of agents, and the seen-combination set is exactly as large as the
agent list. -/
def uniqueRun : Option (List Agent × List Traits × RNG × Nat) → Prop
  | none => True
  | some out =>
      (out.1.map Agent.traits).Nodup ∧
      (out.1.map Agent.traits).toFinset.card = out.1.length ∧
      out.2.1.length = out.1.length

/-- Claim C1: every successful run of the generation loop (over any
schedule, so in particular the N=2000 one) yields agents whose
TraitAssignments are pairwise distinct; equivalently the cardinality of
the set of seen combination keys equals the number of items generated. -/
theorem generation_unique (schedule : List Int) (g : RNG) (fuel : Nat) :
    uniqueRun (genAll schedule 1 [] [] g fuel) := by
  cases h : genAll schedule 1 [] [] g fuel with
  | none => trivial
  | some out =>
    have hinv := genAll_invariant schedule 1 [] [] g fuel out h (by simp) (by simp)
    refine ⟨hinv.1, ?_, ?_⟩
    · rw [List.toFinset_card_of_nodup hinv.1]
      simp
    · simpa using hinv.2

/-- The generation loop does complete on a small concrete run, so the
uniqueness invariant above is not vacuous. -/
theorem genAll_concrete_success :
    (genAll [0, 1] 1 [] [] ⟨fun _ => 0, 0⟩ 10).isSome = true := by rfl

/-! ## Determinism (claim C5) -/

/-- Claim C5: the generator is a pure function of the seeded RNG state and
the weight table — two runs from identical seed state and identical table
produce identical output: the same shuffled schedule, the same agents
(trait assignments and prompts), the same serialized prompts text, and the
same metadata documents. -/
theorem regeneration_deterministic (g₁ g₂ : RNG) (t₁ t₂ : List (Int × Nat))
    (hg : g₁ = g₂) (ht : t₁ = t₂) : runMain g₁ t₁ = runMain g₂ t₂ := by
  rw [hg, ht]

/-- Claim C5 witness: the program's own seed state and weight table. -/
theorem regeneration_deterministic_witness :
    runMain ⟨fun n => n, 0⟩ RARITY_WEIGHTS = runMain ⟨fun n => n, 0⟩ RARITY_WEIGHTS :=
  regeneration_deterministic ⟨fun n => n, 0⟩ ⟨fun n => n, 0⟩
    RARITY_WEIGHTS RARITY_WEIGHTS rfl rfl

/-! ## Prompt elision of absent optional traits (claim C9) -/

/-- Every string that can appear as an optional-trait prompt fragment. -/
def optionalVocab : List String := ACCESSORIES ++ TATTOOS ++ PIERCINGS ++ FRECKLES

/-- Every hair fragment `f"{hair_color} {hair_style}"` the renderer can
produce. -/
def hairComboPool : List String :=
  HAIR_COLORS.flatMap fun c => HAIR_STYLES.map fun s => c ++ " " ++ s

/-- Every background fragment `f"{background} background"`. -/
def backgroundPartPool : List String := BACKGROUNDS.map fun b => b ++ " background"

/-- Every string a mandatory prompt fragment can be. -/
def mandatoryPartPool : List String :=
  ["Chibi agent, oversized head, large glossy black eyes with white highlights",
   "chest-up portrait",
   "kawaii digital art, NFT collectible card style"] ++
  hairComboPool ++ SKIN_TONES ++ EXPRESSIONS ++ SUIT_STYLES ++ SUNGLASSES ++
  backgroundPartPool

set_option maxRecDepth 4096 in
theorem mandatoryPartPool_safe :
    ∀ s ∈ mandatoryPartPool, s ≠ "" ∧ s ∉ optionalVocab := by decide

set_option maxRecDepth 4096 in
/-- The four optional trait pools are pairwise disjoint: no string belongs
to two of them. -/
theorem optionalPools_disjoint :
    (∀ s ∈ ACCESSORIES, s ∉ TATTOOS ∧ s ∉ PIERCINGS ∧ s ∉ FRECKLES) ∧
    (∀ s ∈ TATTOOS, s ∉ ACCESSORIES ∧ s ∉ PIERCINGS ∧ s ∉ FRECKLES) ∧
    (∀ s ∈ PIERCINGS, s ∉ ACCESSORIES ∧ s ∉ TATTOOS ∧ s ∉ FRECKLES) ∧
    (∀ s ∈ FRECKLES, s ∉ ACCESSORIES ∧ s ∉ TATTOOS ∧ s ∉ PIERCINGS) := by
  decide

/-- Membership in an optional fragment insertion `if present then l ++ [x]
else l`. -/
theorem mem_if_append {s x : String} {l : List String} {c : Bool}
    (h : s ∈ (if c = true then l ++ [x] else l)) : s ∈ l ∨ (c = true ∧ s = x) := by
  by_cases hc : c = true
  · rw [if_pos hc] at h
    rcases List.mem_append.1 h with h | h
    · exact Or.inl h
    · simp only [List.mem_singleton] at h
      exact Or.inr ⟨hc, h⟩
  · rw [if_neg hc] at h
    exact Or.inl h

/-- Every fragment of `buildParts t` is one of the nine mandatory
fragments or the value of a (truthily) present optional trait. -/
theorem buildParts_mem_cases (t : Traits) (s : String) (hs : s ∈ buildParts t) :
    s ∈ ["Chibi agent, oversized head, large glossy black eyes with white highlights",
         t.hair_color ++ " " ++ t.hair_style, t.skin_tone, t.expression,
         t.suit_style, t.sunglasses, "chest-up portrait",
         t.background ++ " background",
         "kawaii digital art, NFT collectible card style"] ∨
    (truthy t.accessory = true ∧ s = t.accessory.getD "") ∨
    (truthy t.tattoo = true ∧ s = t.tattoo.getD "") ∨
    (truthy t.piercing = true ∧ s = t.piercing.getD "") ∨
    (truthy t.freckles = true ∧ s = t.freckles.getD "") := by
  simp only [buildParts] at hs
  rcases List.mem_append.1 hs with h | h
  · rcases mem_if_append h with h | h
    · rcases mem_if_append h with h | h
      · rcases mem_if_append h with h | h
        · rcases List.mem_append.1 h with h | h
          · rcases mem_if_append h with h | h
            · left
              simp only [List.mem_cons, List.not_mem_nil, or_false] at h ⊢
              tauto
            · exact Or.inr (Or.inr (Or.inr (Or.inr h)))
          · left
            simp only [List.mem_cons, List.not_mem_nil, or_false] at h ⊢
            tauto
        · exact Or.inr (Or.inl h)
      · exact Or.inr (Or.inr (Or.inl h))
    · exact Or.inr (Or.inr (Or.inr (Or.inl h)))
  · left
    simp only [List.mem_cons, List.not_mem_nil, or_false] at h ⊢
    tauto

/-- Claim C9: for every trait assignment drawn from the pools, no prompt
fragment is an empty string, and no fragment stands in for any absent
optional trait: whenever the accessory (tattoo, piercing, freckles) trait
is absent, no fragment of the prompt is a value of that category's pool —
and in the zero-extras case the prompt is exactly the nine mandatory
fragments, none of which belongs to any optional-category vocabulary. -/
theorem prompt_elides_absent (t : Traits)
    (hhs : t.hair_style ∈ HAIR_STYLES) (hhc : t.hair_color ∈ HAIR_COLORS)
    (hsk : t.skin_tone ∈ SKIN_TONES) (hex : t.expression ∈ EXPRESSIONS)
    (hsuit : t.suit_style ∈ SUIT_STYLES) (hsun : t.sunglasses ∈ SUNGLASSES)
    (hbg : t.background ∈ BACKGROUNDS)
    (hacc : ∀ v, t.accessory = some v → v ∈ ACCESSORIES)
    (htat : ∀ v, t.tattoo = some v → v ∈ TATTOOS)
    (hpi : ∀ v, t.piercing = some v → v ∈ PIERCINGS)
    (hfr : ∀ v, t.freckles = some v → v ∈ FRECKLES) :
    "" ∉ buildParts t ∧
    (t.accessory = none → ∀ s ∈ buildParts t, s ∉ ACCESSORIES) ∧
    (t.tattoo = none → ∀ s ∈ buildParts t, s ∉ TATTOOS) ∧
    (t.piercing = none → ∀ s ∈ buildParts t, s ∉ PIERCINGS) ∧
    (t.freckles = none → ∀ s ∈ buildParts t, s ∉ FRECKLES) ∧
    (t.accessory = none → t.tattoo = none → t.piercing = none → t.freckles = none →
      buildParts t =
        ["Chibi agent, oversized head, large glossy black eyes with white highlights",
         t.hair_color ++ " " ++ t.hair_style, t.skin_tone, t.expression,
         t.suit_style, t.sunglasses, "chest-up portrait",
         t.background ++ " background",
         "kawaii digital art, NFT collectible card style"] ∧
      ∀ s ∈ buildParts t, s ∉ optionalVocab) := by
  have hcombo : t.hair_color ++ " " ++ t.hair_style ∈ hairComboPool :=
    List.mem_flatMap.2 ⟨t.hair_color, hhc, List.mem_map.2 ⟨t.hair_style, hhs, rfl⟩⟩
  have hbgp : t.background ++ " background" ∈ backgroundPartPool :=
    List.mem_map.2 ⟨t.background, hbg, rfl⟩
  have hmand : ∀ x ∈
      ["Chibi agent, oversized head, large glossy black eyes with white highlights",
       t.hair_color ++ " " ++ t.hair_style, t.skin_tone, t.expression,
       t.suit_style, t.sunglasses, "chest-up portrait",
       t.background ++ " background",
       "kawaii digital art, NFT collectible card style"],
      x ∈ mandatoryPartPool := by
    intro x hx
    simp only [List.mem_cons, List.not_mem_nil, or_false] at hx
    rcases hx with h | h | h | h | h | h | h | h | h <;> subst h <;>
      simp [mandatoryPartPool, hcombo, hsk, hex, hsuit, hsun, hbgp]
  have hval : ∀ (o : Option String) (pool : List String),
      (∀ v, o = some v → v ∈ pool) → truthy o = true → o.getD "" ∈ pool := by
    intro o pool hp ht
    cases o with
    | none => simp [truthy] at ht
    | some v => exact hp v rfl
  have habs_acc : t.accessory = none → ∀ s ∈ buildParts t, s ∉ ACCESSORIES := by
    intro hnone s hs hmem
    rcases buildParts_mem_cases t s hs with h | h | h | h | h
    · exact (mandatoryPartPool_safe s (hmand s h)).2 (by
        simp only [optionalVocab, List.mem_append]
        exact Or.inl (Or.inl (Or.inl hmem)))
    · rw [hnone] at h; simp [truthy] at h
    · exact (optionalPools_disjoint.2.1 s (h.2 ▸ hval t.tattoo TATTOOS htat h.1)).1 hmem
    · exact (optionalPools_disjoint.2.2.1 s (h.2 ▸ hval t.piercing PIERCINGS hpi h.1)).1 hmem
    · exact (optionalPools_disjoint.2.2.2 s (h.2 ▸ hval t.freckles FRECKLES hfr h.1)).1 hmem
  have habs_tat : t.tattoo = none → ∀ s ∈ buildParts t, s ∉ TATTOOS := by
    intro hnone s hs hmem
    rcases buildParts_mem_cases t s hs with h | h | h | h | h
    · exact (mandatoryPartPool_safe s (hmand s h)).2 (by
        simp only [optionalVocab, List.mem_append]
        exact Or.inl (Or.inl (Or.inr hmem)))
    · exact (optionalPools_disjoint.1 s (h.2 ▸ hval t.accessory ACCESSORIES hacc h.1)).1 hmem
    · rw [hnone] at h; simp [truthy] at h
    · exact (optionalPools_disjoint.2.2.1 s (h.2 ▸ hval t.piercing PIERCINGS hpi h.1)).2.1 hmem
    · exact (optionalPools_disjoint.2.2.2 s (h.2 ▸ hval t.freckles FRECKLES hfr h.1)).2.1 hmem
  have habs_pi : t.piercing = none → ∀ s ∈ buildParts t, s ∉ PIERCINGS := by
    intro hnone s hs hmem
    rcases buildParts_mem_cases t s hs with h | h | h | h | h
    · exact (mandatoryPartPool_safe s (hmand s h)).2 (by
        simp only [optionalVocab, List.mem_append]
        exact Or.inl (Or.inr hmem))
    · exact (optionalPools_disjoint.1 s (h.2 ▸ hval t.accessory ACCESSORIES hacc h.1)).2.1 hmem
    · exact (optionalPools_disjoint.2.1 s (h.2 ▸ hval t.tattoo TATTOOS htat h.1)).2.1 hmem
    · rw [hnone] at h; simp [truthy] at h
    · exact (optionalPools_disjoint.2.2.2 s (h.2 ▸ hval t.freckles FRECKLES hfr h.1)).2.2 hmem
  have habs_fr : t.freckles = none → ∀ s ∈ buildParts t, s ∉ FRECKLES := by
    intro hnone s hs hmem
    rcases buildParts_mem_cases t s hs with h | h | h | h | h
    · exact (mandatoryPartPool_safe s (hmand s h)).2 (by
        simp only [optionalVocab, List.mem_append]
        exact Or.inr hmem)
    · exact (optionalPools_disjoint.1 s (h.2 ▸ hval t.accessory ACCESSORIES hacc h.1)).2.2 hmem
    · exact (optionalPools_disjoint.2.1 s (h.2 ▸ hval t.tattoo TATTOOS htat h.1)).2.2 hmem
    · exact (optionalPools_disjoint.2.2.1 s (h.2 ▸ hval t.piercing PIERCINGS hpi h.1)).2.2 hmem
    · rw [hnone] at h; simp [truthy] at h
  refine ⟨?_, habs_acc, habs_tat, habs_pi, habs_fr, ?_⟩
  · intro hc
    rcases buildParts_mem_cases t "" hc with h | h | h | h | h
    · exact (mandatoryPartPool_safe "" (hmand "" h)).1 rfl
    · have hin : t.accessory.getD "" ∈ ACCESSORIES := hval t.accessory ACCESSORIES hacc h.1
      rw [← h.2] at hin
      exact absurd hin (by decide)
    · have hin : t.tattoo.getD "" ∈ TATTOOS := hval t.tattoo TATTOOS htat h.1
      rw [← h.2] at hin
      exact absurd hin (by decide)
    · have hin : t.piercing.getD "" ∈ PIERCINGS := hval t.piercing PIERCINGS hpi h.1
      rw [← h.2] at hin
      exact absurd hin (by decide)
    · have hin : t.freckles.getD "" ∈ FRECKLES := hval t.freckles FRECKLES hfr h.1
      rw [← h.2] at hin
      exact absurd hin (by decide)
  · intro ha ht' hp' hf'
    refine ⟨by simp [buildParts, ha, ht', hp', hf', truthy], ?_⟩
    intro s hs hv
    have hv4 : s ∈ ACCESSORIES ∨ s ∈ TATTOOS ∨ s ∈ PIERCINGS ∨ s ∈ FRECKLES := by
      simpa [optionalVocab, List.mem_append, or_assoc] using hv
    rcases hv4 with h | h | h | h
    · exact habs_acc ha s hs h
    · exact habs_tat ht' s hs h
    · exact habs_pi hp' s hs h
    · exact habs_fr hf' s hs h

/-- Claim C9 witness: an assignment with an accessory present and the
other three optional traits absent renders with no empty fragment; a
zero-extras assignment renders to exactly the nine mandatory fragments. -/
theorem prompt_elides_absent_witness :
    "" ∉ buildParts ⟨"black suit black tie", "black aviator sunglasses",
      "short spiky hair", "black", "pale skin",
      "grainy surveillance footage of parking garage", "tiny neutral mouth",
      some "coiled clear earpiece", none, none, none⟩ ∧
    buildParts ⟨"black suit black tie", "black aviator sunglasses",
      "short spiky hair", "black", "pale skin",
      "grainy surveillance footage of parking garage", "tiny neutral mouth",
      none, none, none, none⟩ =
      ["Chibi agent, oversized head, large glossy black eyes with white highlights",
       "black" ++ " " ++ "short spiky hair", "pale skin", "tiny neutral mouth",
       "black suit black tie", "black aviator sunglasses", "chest-up portrait",
       "grainy surveillance footage of parking garage" ++ " background",
       "kawaii digital art, NFT collectible card style"] :=
  ⟨(prompt_elides_absent _ (by decide) (by decide) (by decide) (by decide)
      (by decide) (by decide) (by decide)
      (fun v hv => by cases hv; decide) (fun v hv => by cases hv)
      (fun v hv => by cases hv) (fun v hv => by cases hv)).1,
   ((prompt_elides_absent _ (by decide) (by decide) (by decide) (by decide)
      (by decide) (by decide) (by decide)
      (fun v hv => by cases hv) (fun v hv => by cases hv)
      (fun v hv => by cases hv) (fun v hv => by cases hv)).2.2.2.2.2
      rfl rfl rfl rfl).1⟩

end Fal
